import Mathlib

/-!
Shallow embedding of `Common/DataModel/vtkDataSet.cxx` (VTK): the structured
ghost-array classifier, the modification-time gated bounds and scalar-range
caches, the attribute consistency check and the ghost-array pointer cache.
-/

namespace VTK

/-- Reserved name of the ghost-status array,
`vtkDataSetAttributes::GhostArrayName()` (declared outside the translated
file; its value is the constant string "vtkGhostType"). -/
def ghostArrayName : String := "vtkGhostType"

/-- The `vtkDataSetAttributes::DUPLICATEPOINT` bit. -/
def DUPLICATEPOINT : Nat := 1

/-- The `vtkDataSetAttributes::DUPLICATECELL` bit. -/
def DUPLICATECELL : Nat := 1

/-- A structured extent `[x0,x1, y0,y1, z0,z1]`, the six entries of an
`int extent[6]` array. -/
structure Extent where
  x0 : Int
  x1 : Int
  y0 : Int
  y1 : Int
  z0 : Int
  z1 : Int
deriving DecidableEq

/-- Modelled from the spec: `vtkStructuredData::GetNumberOfPoints` is not part
of the translated file; the number of grid points of an extent is the product
of the per-axis point counts `hi - lo + 1` (zero on an empty axis). -/
def numPointsOfExtent (e : Extent) : Nat :=
  (e.x1 - e.x0 + 1).toNat * ((e.y1 - e.y0 + 1).toNat * (e.z1 - e.z0 + 1).toNat)

/-- Modelled from the spec: per-axis cell count used by
`vtkStructuredData::GetNumberOfCells` (not part of the translated file); a
degenerate axis (`hi = lo`) contributes one cell, a nonempty axis `hi - lo`
cells, an empty axis makes the count zero. -/
def axisCellCount (lo hi : Int) : Nat :=
  if hi < lo then 0 else if hi = lo then 1 else (hi - lo).toNat

/-- Modelled from the spec: `vtkStructuredData::GetNumberOfCells` (not part of
the translated file). -/
def numCellsOfExtent (e : Extent) : Nat :=
  axisCellCount e.x0 e.x1 * (axisCellCount e.y0 e.y1 * axisCellCount e.z0 e.z1)

/-- Per-axis overflow distance of a point index: `di = 0; if (i < lo)
di = lo - i; if (i > hi) di = i - hi + 1;` — the later test wins. -/
def pointAxisDist (lo hi a : Int) : Int :=
  if hi < a then a - hi + 1 else if a < lo then lo - a else 0

/-- Per-axis overflow distance of a cell index; the upper test of the cell
loop is `a >= hi`. -/
def cellAxisDist (lo hi a : Int) : Int :=
  if hi ≤ a then a - hi + 1 else if a < lo then lo - a else 0

/-- `dist = di; if (dj > dist) dist = dj; if (dk > dist) dist = dk;` — the
componentwise maximum (Chebyshev combination). -/
def distMax (di dj dk : Int) : Int := max (max di dj) dk

/-- Chebyshev overflow distance of a point `(i, j, k)` from the zero extent. -/
def pointDist (z : Extent) (p : Int × Int × Int) : Int :=
  distMax (pointAxisDist z.x0 z.x1 p.1) (pointAxisDist z.y0 z.y1 p.2.1)
    (pointAxisDist z.z0 z.z1 p.2.2)

/-- Chebyshev overflow distance of a cell `(i, j, k)` from the zero extent. -/
def cellDist (z : Extent) (p : Int × Int × Int) : Int :=
  distMax (cellAxisDist z.x0 z.x1 p.1) (cellAxisDist z.y0 z.y1 p.2.1)
    (cellAxisDist z.z0 z.z1 p.2.2)

/-- The point indices visited by the point loop of `GenerateGhostArray`, in
visiting order: `k` outermost over the inclusive range `[z0, z1]`, then `j`,
then `i` innermost. -/
def pointLoop (e : Extent) : List (Int × Int × Int) :=
  (List.range (e.z1 - e.z0 + 1).toNat).flatMap (fun (kk : Nat) =>
    (List.range (e.y1 - e.y0 + 1).toNat).flatMap (fun (jj : Nat) =>
      (List.range (e.x1 - e.x0 + 1).toNat).map (fun (ii : Nat) =>
        (e.x0 + (ii : Int), e.y0 + (jj : Int), e.z0 + (kk : Int)))))

/-- The cell indices visited by the cell loop of `GenerateGhostArray`, in
visiting order; the loop bounds are half-open (`k < extent[5]` etc.). -/
def cellLoop (e : Extent) : List (Int × Int × Int) :=
  (List.range (e.z1 - e.z0).toNat).flatMap (fun (kk : Nat) =>
    (List.range (e.y1 - e.y0).toNat).flatMap (fun (jj : Nat) =>
      (List.range (e.x1 - e.x0).toNat).map (fun (ii : Nat) =>
        (e.x0 + (ii : Int), e.y0 + (jj : Int), e.z0 + (kk : Int)))))

/-- Body of one loop iteration on the current value: OR the duplicate bit in
when the distance is positive, otherwise keep the value. -/
def markValue (dup : Nat) (d : Int) (v : Nat) : Nat :=
  if 0 < d then v ||| dup else v

/-- The marking loop: for each visited index in order, read
`GetValue(index)`, write back `markValue`, and advance the running `index`
counter by one. -/
def ghostPass (dup : Nat) (dist : Int × Int × Int → Int) :
    List (Int × Int × Int) → Nat → List Nat → List Nat
  | [], _, g => g
  | p :: ps, idx, g =>
      ghostPass dup dist ps (idx + 1) (g.set idx (markValue dup (dist p) (g.getD idx 0)))

/-- An attribute set (`vtkPointData` / `vtkCellData`), abstracted to the
mapping from array names to unsigned-char arrays. -/
def AttrSet : Type := String → Option (List Nat)

/-- `GetArray(name)`. -/
def lookupArray (s : AttrSet) (n : String) : Option (List Nat) := s n

/-- `AddArray`: store the array under its name (replacing a same-named
array). -/
def addArray (s : AttrSet) (n : String) (a : List Nat) : AttrSet :=
  fun m => if m = n then some a else s m

/-- The slice of `vtkDataSet` state used by the ghost classifier: whether the
extent type is `VTK_3D_EXTENT`, the `DATA_EXTENT` of the information object,
and the two attribute sets. -/
structure DataSet where
  isStructured : Bool
  extent : Extent
  pointData : AttrSet
  cellData : AttrSet

/-- `if (extent[d0] == extent[d1]) ++extent[d1];` for the three axes: a
degenerate axis of the true extent is inflated so all data is treated as
3D. -/
def inflatedExtent (e : Extent) : Extent :=
  { e with
    x1 := if e.x0 = e.x1 then e.x1 + 1 else e.x1
    y1 := if e.y0 = e.y1 then e.y1 + 1 else e.y1
    z1 := if e.z0 = e.z1 then e.z1 + 1 else e.z1 }

/-- The matching `++zeroExt[d1];` mutations of the caller-supplied zero
extent, driven by degeneracy of the true extent `e`. -/
def inflatedZeroExt (e z : Extent) : Extent :=
  { z with
    x1 := if e.x0 = e.x1 then z.x1 + 1 else z.x1
    y1 := if e.y0 = e.y1 then z.y1 + 1 else z.y1
    z1 := if e.z0 = e.z1 then z.z1 + 1 else z.z1 }

/-- `vtkDataSet::GenerateGhostArray(int zeroExt[6], bool cellOnly)`. Returns
the updated dataset together with the final value of the caller-visible
`zeroExt` array (a C++ array parameter decays to a pointer, so the `++zeroExt`
mutations of the cell pass are seen by the caller). A missing ghost array is
created with one zero tuple per point (resp. cell) of the extent; the loops
then OR duplicate bits into it, which is modelled by storing the fully marked
array under the reserved name. -/
def GenerateGhostArray (ds : DataSet) (zeroExt : Extent) (cellOnly : Bool) :
    DataSet × Extent :=
  if ds.isStructured = false then (ds, zeroExt)
  else if ds.extent = zeroExt then (ds, zeroExt)
  else
    let e := ds.extent
    let basePt := (lookupArray ds.pointData ghostArrayName).getD
      (List.replicate (numPointsOfExtent e) 0)
    let pd := if cellOnly then ds.pointData else
      addArray ds.pointData ghostArrayName
        (ghostPass DUPLICATEPOINT (pointDist zeroExt) (pointLoop e) 0 basePt)
    let baseCl := (lookupArray ds.cellData ghostArrayName).getD
      (List.replicate (numCellsOfExtent e) 0)
    let e2 := inflatedExtent e
    let z2 := inflatedZeroExt e zeroExt
    let cd := addArray ds.cellData ghostArrayName
      (ghostPass DUPLICATECELL (cellDist z2) (cellLoop e2) 0 baseCl)
    ({ ds with pointData := pd, cellData := cd }, z2)

/-- `vtkDataSet::IsAnyBitSet`: `false` for a null array, otherwise whether
some entry has a bit of `bitFlag` set (the short-circuiting parallel OR-scan
of `IsAnyBitSetFunctor` reduces to an existence test). -/
def IsAnyBitSet (a : Option (List Nat)) (bitFlag : Nat) : Bool :=
  match a with
  | none => false
  | some l => l.any (fun v => v &&& bitFlag != 0)

/-- `vtkDataSet::HasAnyGhostPoints`; the pointer returned by
`GetPointGhostArray` always equals the array stored under the reserved name
(see the cache-invariant development below). -/
def HasAnyGhostPoints (ds : DataSet) : Bool :=
  IsAnyBitSet (lookupArray ds.pointData ghostArrayName) DUPLICATEPOINT

/-- `vtkDataSet::HasAnyGhostCells`. -/
def HasAnyGhostCells (ds : DataSet) : Bool :=
  IsAnyBitSet (lookupArray ds.cellData ghostArrayName) DUPLICATECELL

/-- The GhostClassifier scenario dataset: a structured dataset with true
extent `[0,4,0,4,0,0]` (a 2D grid of 5 by 5 points) and no attribute arrays
yet. -/
def scenarioDS : DataSet :=
  { isStructured := true, extent := ⟨0, 4, 0, 4, 0, 0⟩,
    pointData := fun _ => none, cellData := fun _ => none }

/-- The canonical (zero-ghost) extent `[1,3,1,3,0,0]` of the scenario. -/
def scenarioZero : Extent := ⟨1, 3, 1, 3, 0, 0⟩

/-- Expected point ghost values of the scenario: the sixteen border points of
the 5 by 5 grid carry `DUPLICATEPOINT`, the interior nine are zero. -/
def scenarioExpected : List Nat :=
  [1, 1, 1, 1, 1,
   1, 0, 0, 0, 1,
   1, 0, 0, 0, 1,
   1, 0, 0, 0, 1,
   1, 1, 1, 1, 1]

/-- A small structured dataset used as concrete witness input: true extent
`[0,1,0,0,0,0]` (two points, one cell), ghost arrays already present. -/
def wDS : DataSet :=
  { isStructured := true, extent := ⟨0, 1, 0, 0, 0, 0⟩,
    pointData := addArray (fun _ => none) ghostArrayName [0, 0],
    cellData := addArray (fun _ => none) ghostArrayName [0] }

/-- The same small dataset with no attribute arrays. -/
def wDS2 : DataSet :=
  { isStructured := true, extent := ⟨0, 1, 0, 0, 0, 0⟩,
    pointData := fun _ => none, cellData := fun _ => none }

/-- Witness zero extent `[0,0,0,0,0,0]`, different from the extent of `wDS`. -/
def wZ : Extent := ⟨0, 0, 0, 0, 0, 0⟩

/-- `VTK_DOUBLE_MAX` (defined outside the translated file as the largest
finite double value). -/
def vtkDoubleMax : ℚ := 17976931348623157 * 10 ^ 292

/-- `VTK_DOUBLE_MIN = -VTK_DOUBLE_MAX`. -/
def vtkDoubleMin : ℚ := -vtkDoubleMax

/-- A bounding box `(xmin, xmax, ymin, ymax, zmin, zmax)` of six doubles. -/
structure Box where
  xmin : ℚ
  xmax : ℚ
  ymin : ℚ
  ymax : ℚ
  zmin : ℚ
  zmax : ℚ
deriving DecidableEq

/-- Modelled from the spec: `vtkMath::UninitializeBounds` (outside the
translated file) writes the inverted sentinel box with `min > max` on every
axis, distinct from every valid box and in particular from the degenerate
zero box. -/
def uninitializedBounds : Box := ⟨1, -1, 1, -1, 1, -1⟩

/-- The per-worker initialization of `ComputeBoundsFunctor::Initialize`. -/
def initLocalBounds : Box :=
  ⟨vtkDoubleMax, vtkDoubleMin, vtkDoubleMax, vtkDoubleMin, vtkDoubleMax, vtkDoubleMin⟩

/-- One step of `ComputeBoundsFunctor::operator()`: widen the running box to
include one point (per axis, replace the min if the coordinate is below it
and the max if the coordinate is above it). -/
def widenBounds (b : Box) (p : ℚ × ℚ × ℚ) : Box :=
  { xmin := if p.1 < b.xmin then p.1 else b.xmin
    xmax := if p.1 > b.xmax then p.1 else b.xmax
    ymin := if p.2.1 < b.ymin then p.2.1 else b.ymin
    ymax := if p.2.1 > b.ymax then p.2.1 else b.ymax
    zmin := if p.2.2 < b.zmin then p.2.2 else b.zmin
    zmax := if p.2.2 > b.zmax then p.2.2 else b.zmax }

/-- The whole `ComputeBoundsFunctor` reduction over all points; the merge in
`Reduce` is the same componentwise min/max widening, so the fork/reduce
evaluation equals the sequential left fold from the initial local box. -/
def computeBoundsLoop (pts : List (ℚ × ℚ × ℚ)) : Box :=
  pts.foldl widenBounds initLocalBounds

/-- The slice of `vtkDataSet` state used by the geometry and scalar-range
caches. `points` stands for the coordinates served by `GetPoint`; the two
optional ranges stand for the ghost-excluded ranges that the active point and
cell scalar arrays report through `vtkDataArray::GetRange` (outside the
translated file), `none` when the active array is absent. `dataMTime`,
`pointMTime` and `cellMTime` are the constituent modification clocks read by
`GetMTime`; `global` is the monotone counter from which fresh time stamps are
drawn. -/
structure DataSetB where
  points : List (ℚ × ℚ × ℚ)
  ptScalarRange : Option (ℚ × ℚ)
  cellScalarRange : Option (ℚ × ℚ)
  dataMTime : Nat
  pointMTime : Nat
  cellMTime : Nat
  global : Nat
  bounds : Box
  computeTime : Nat
  scalarRange : ℚ × ℚ
  scalarRangeComputeTime : Nat

/-- `vtkDataSet::GetMTime`: the data-object clock joined with the point and
cell attribute clocks. -/
def GetMTime (ds : DataSetB) : Nat :=
  max (max ds.dataMTime ds.pointMTime) ds.cellMTime

/-- `vtkDataSet::ComputeBounds`: recompute and restamp only when
`GetMTime() > ComputeTime`; with no points the bounds become the
uninitialized sentinel. Modelled from the spec: `vtkTimeStamp::Modified`
(outside the translated file) advances a stamp to the next value of the
global monotone modification counter — the value "now". -/
def ComputeBounds (ds : DataSetB) : DataSetB :=
  if GetMTime ds > ds.computeTime then
    { ds with
      bounds := if ds.points.length ≠ 0 then computeBoundsLoop ds.points
                else uninitializedBounds
      global := ds.global + 1
      computeTime := ds.global + 1 }
  else ds

/-- `vtkDataSet::GetBounds`. -/
def GetBounds (ds : DataSetB) : Box := (ComputeBounds ds).bounds

/-- The combination step of `vtkDataSet::ComputeScalarRange` on the two
optional ghost-excluded ranges. -/
def combineRanges (r1 r2 : Option (ℚ × ℚ)) : ℚ × ℚ :=
  match r1, r2 with
  | some a, some b =>
      (if a.1 < b.1 then a.1 else b.1, if a.2 > b.2 then a.2 else b.2)
  | some a, none => a
  | none, some b => b
  | none, none => (0, 1)

/-- `vtkDataSet::ComputeScalarRange`, gated by `ScalarRangeComputeTime`. -/
def ComputeScalarRange (ds : DataSetB) : DataSetB :=
  if GetMTime ds > ds.scalarRangeComputeTime then
    { ds with
      scalarRange := combineRanges ds.ptScalarRange ds.cellScalarRange
      global := ds.global + 1
      scalarRangeComputeTime := ds.global + 1 }
  else ds

/-- `vtkDataSet::GetScalarRange`. -/
def GetScalarRange (ds : DataSetB) : ℚ × ℚ := (ComputeScalarRange ds).scalarRange

/-- `vtkDataSet::GetLength2`: zero when there are no points (an early return,
before any bounds are touched), otherwise the sum of the squared per-axis
extents of the gated bounds. -/
def GetLength2 (ds : DataSetB) : ℚ :=
  if ds.points.length = 0 then 0
  else
    ((GetBounds ds).xmax - (GetBounds ds).xmin) *
        ((GetBounds ds).xmax - (GetBounds ds).xmin) +
      ((GetBounds ds).ymax - (GetBounds ds).ymin) *
        ((GetBounds ds).ymax - (GetBounds ds).ymin) +
      ((GetBounds ds).zmax - (GetBounds ds).zmin) *
        ((GetBounds ds).zmax - (GetBounds ds).zmin)

/-- `vtkDataSet::GetLength`: the square root of `GetLength2`. -/
noncomputable def GetLength (ds : DataSetB) : ℝ := Real.sqrt (GetLength2 ds)

/-- The scalar left fold underlying one min component of the widening. -/
def minFold (xs : List ℚ) (a : ℚ) : ℚ :=
  xs.foldl (fun m x => if x < m then x else m) a

/-- The scalar left fold underlying one max component of the widening. -/
def maxFold (xs : List ℚ) (a : ℚ) : ℚ :=
  xs.foldl (fun m x => if x > m then x else m) a

/-- The clock invariant of every reachable state: each constituent clock
value was drawn from the global counter, so none is ahead of it. -/
def WellFormedClocks (ds : DataSetB) : Prop :=
  ds.dataMTime ≤ ds.global ∧ ds.pointMTime ≤ ds.global ∧ ds.cellMTime ≤ ds.global

/-- A concrete stale state for the C2 counterexample: the point clock has
advanced to 1 (the global counter reads 1) while the bounds stamp is 0. -/
def staleDS : DataSetB :=
  { points := [(0, 0, 0)], ptScalarRange := none, cellScalarRange := none,
    dataMTime := 0, pointMTime := 1, cellMTime := 0, global := 1,
    bounds := uninitializedBounds, computeTime := 0,
    scalarRange := (0, 1), scalarRangeComputeTime := 0 }

/-- A concrete stale dataset carrying both active scalar ranges. -/
def scalarDS : DataSetB :=
  { points := [], ptScalarRange := some (0, 10), cellScalarRange := some (5, 20),
    dataMTime := 0, pointMTime := 1, cellMTime := 0, global := 1,
    bounds := uninitializedBounds, computeTime := 0,
    scalarRange := (0, 1), scalarRangeComputeTime := 0 }

/-- A concrete stale dataset with a single point. -/
def onePointDS : DataSetB :=
  { points := [(1, 2, 3)], ptScalarRange := none, cellScalarRange := none,
    dataMTime := 0, pointMTime := 1, cellMTime := 0, global := 1,
    bounds := uninitializedBounds, computeTime := 0,
    scalarRange := (0, 1), scalarRangeComputeTime := 0 }

/-- A concrete stale dataset with no points. -/
def emptyDS : DataSetB :=
  { points := [], ptScalarRange := none, cellScalarRange := none,
    dataMTime := 0, pointMTime := 1, cellMTime := 0, global := 1,
    bounds := ⟨0, 0, 0, 0, 0, 0⟩, computeTime := 0,
    scalarRange := (0, 1), scalarRangeComputeTime := 0 }

/-- The data of one attribute array as read by `CheckAttributes`: its
(possibly null) name, its component count and its tuple count. -/
structure AttrInfo where
  name : Option String
  numComponents : Nat
  numTuples : Nat
deriving DecidableEq

/-- The state read by `CheckAttributes`: the arrays of the two attribute
sets, in index order, and the point and cell counts. -/
structure DataSetA where
  pointArrays : List AttrInfo
  numPoints : Nat
  cellArrays : List AttrInfo
  numCells : Nat

/-- Severity of an emitted diagnostic: `vtkErrorMacro` or
`vtkWarningMacro`. -/
inductive Severity
  | error
  | warning
deriving DecidableEq

/-- One emitted diagnostic: severity, whether it concerns a point array, the
printed array name (the empty string when the name is null), the tuple count
of the array and the element count it was compared against. -/
structure Diag where
  sev : Severity
  forPoints : Bool
  arrayName : String
  tuples : Nat
  count : Nat
deriving DecidableEq

/-- The scan of one attribute set by `CheckAttributes`, arrays in index
order: an array with fewer tuples than elements emits an error diagnostic
and aborts the scan with result 1; an array with more tuples emits a warning
diagnostic and the scan continues; otherwise the scan continues silently. -/
def checkArrays (forPoints : Bool) (count : Nat) : List AttrInfo → Nat × List Diag
  | [] => (0, [])
  | a :: rest =>
      let nm := a.name.getD ""
      if a.numTuples < count then
        (1, [⟨Severity.error, forPoints, nm, a.numTuples, count⟩])
      else
        let w : List Diag :=
          if a.numTuples > count then
            [⟨Severity.warning, forPoints, nm, a.numTuples, count⟩]
          else []
        let r := checkArrays forPoints count rest
        (r.1, w ++ r.2)

/-- `vtkDataSet::CheckAttributes`: scan the point arrays against the point
count; on error return 1 at once; otherwise scan the cell arrays against the
cell count and return that result (0 on success). The function only reads
the dataset; diagnostics are emitted on the side channel. -/
def CheckAttributes (ds : DataSetA) : Nat × List Diag :=
  let rp := checkArrays true ds.numPoints ds.pointArrays
  if rp.1 = 1 then rp
  else
    let rc := checkArrays false ds.numCells ds.cellArrays
    (rc.1, rp.2 ++ rc.2)

/-- A concrete dataset with one oversized point array (warning only) and one
undersized, unnamed cell array (error). -/
def wA : DataSetA :=
  { pointArrays := [⟨some "temperature", 1, 2⟩], numPoints := 1,
    cellArrays := [⟨none, 1, 0⟩], numCells := 2 }

/-- The slice of `vtkDataSet` state behind the ghost-array pointer caches:
the arrays of the two attribute sets as name/identity pairs, the two cached
pointers (`nullptr` modelled as `none`) and the two cached flags. -/
structure CacheState where
  pointArrays : List (String × Nat)
  cellArrays : List (String × Nat)
  pointGhostArray : Option Nat
  pointGhostArrayCached : Bool
  cellGhostArray : Option Nat
  cellGhostArrayCached : Bool
deriving DecidableEq

/-- The lookup of the array stored under the reserved ghost name. -/
def findGhost (arrays : List (String × Nat)) : Option Nat :=
  (arrays.find? (fun kv => kv.1 == ghostArrayName)).map (fun kv => kv.2)

/-- `vtkDataSet::UpdatePointGhostArrayCache`: re-resolve the cached pointer
from the attribute set; the cached flag records whether it is non-null. -/
def UpdatePointGhostArrayCache (s : CacheState) : CacheState :=
  { s with pointGhostArray := findGhost s.pointArrays
           pointGhostArrayCached := (findGhost s.pointArrays).isSome }

/-- `vtkDataSet::UpdateCellGhostArrayCache`. -/
def UpdateCellGhostArrayCache (s : CacheState) : CacheState :=
  { s with cellGhostArray := findGhost s.cellArrays
           cellGhostArrayCached := (findGhost s.cellArrays).isSome }

/-- `vtkDataSet::OnDataModified`, dispatched on the event source: a
point-data event updates the point cache, a cell-data event the cell
cache. -/
def OnDataModified (fromPointData : Bool) (s : CacheState) : CacheState :=
  if fromPointData then UpdatePointGhostArrayCache s else UpdateCellGhostArrayCache s

/-- A mutation of one of the two attribute sets. -/
inductive DataOp
  | pointAdd (name : String) (id : Nat)
  | pointRemove (name : String)
  | cellAdd (name : String) (id : Nat)
  | cellRemove (name : String)

/-- `AddArray` on the name/identity view: replace a same-named entry or
append a new one. -/
def addEntry (arrays : List (String × Nat)) (n : String) (id : Nat) :
    List (String × Nat) :=
  if arrays.any (fun kv => kv.1 == n) then
    arrays.map (fun kv => if kv.1 == n then (n, id) else kv)
  else arrays ++ [(n, id)]

/-- `RemoveArray` on the name/identity view. -/
def removeEntry (arrays : List (String × Nat)) (n : String) :
    List (String × Nat) :=
  arrays.filter (fun kv => !(kv.1 == n))

/-- Modelled from the spec: every mutation of an attribute set fires its
`ModifiedEvent`, which the observer installed by the `vtkDataSet`
constructor delivers to `OnDataModified` (the `vtkCallbackCommand` plumbing
lives outside the translated file). -/
def applyOp (s : CacheState) (op : DataOp) : CacheState :=
  match op with
  | DataOp.pointAdd n id =>
      OnDataModified true { s with pointArrays := addEntry s.pointArrays n id }
  | DataOp.pointRemove n =>
      OnDataModified true { s with pointArrays := removeEntry s.pointArrays n }
  | DataOp.cellAdd n id =>
      OnDataModified false { s with cellArrays := addEntry s.cellArrays n id }
  | DataOp.cellRemove n =>
      OnDataModified false { s with cellArrays := removeEntry s.cellArrays n }

/-- `vtkDataSet::GetPointGhostArray`: resolve and memoize on first use, then
serve the cached pointer. -/
def GetPointGhostArray (s : CacheState) : CacheState × Option Nat :=
  if s.pointGhostArrayCached then (s, s.pointGhostArray)
  else
    ({ s with pointGhostArray := findGhost s.pointArrays
              pointGhostArrayCached := true },
     findGhost s.pointArrays)

/-- `vtkDataSet::GetCellGhostArray`. -/
def GetCellGhostArray (s : CacheState) : CacheState × Option Nat :=
  if s.cellGhostArrayCached then (s, s.cellGhostArray)
  else
    ({ s with cellGhostArray := findGhost s.cellArrays
              cellGhostArrayCached := true },
     findGhost s.cellArrays)

/-- The constructor state of `vtkDataSet`: no arrays, null cached pointers,
cached flags false. -/
def initialCacheState : CacheState :=
  { pointArrays := [], cellArrays := [], pointGhostArray := none,
    pointGhostArrayCached := false, cellGhostArray := none,
    cellGhostArrayCached := false }

/-- A state reached from the constructor by a sequence of attribute-set
mutations. -/
def runOps (ops : List DataOp) : CacheState := ops.foldl applyOp initialCacheState

/-- The coherence invariant of the ghost-array pointer caches: whenever a
cached flag is set, the cached pointer equals the array currently stored
under the reserved ghost name of the corresponding attribute set. -/
def CacheInv (s : CacheState) : Prop :=
  (s.pointGhostArrayCached = true → s.pointGhostArray = findGhost s.pointArrays) ∧
  (s.cellGhostArrayCached = true → s.cellGhostArray = findGhost s.cellArrays)

theorem ghostPass_length (dup : Nat) (dist : Int × Int × Int → Int) :
    ∀ (ps : List (Int × Int × Int)) (idx : Nat) (g : List Nat),
      (ghostPass dup dist ps idx g).length = g.length := by
  intro ps
  induction ps with
  | nil => intro idx g; rfl
  | cons p ps ih =>
    intro idx g
    rw [ghostPass, ih]
    exact List.length_set g idx _

theorem ghostPass_getD_of_lt (dup : Nat) (dist : Int × Int × Int → Int) :
    ∀ (ps : List (Int × Int × Int)) (idx : Nat) (g : List Nat) (n : Nat),
      n < idx → (ghostPass dup dist ps idx g).getD n 0 = g.getD n 0 := by
  intro ps
  induction ps with
  | nil => intro idx g n _; rfl
  | cons p ps ih =>
    intro idx g n hn
    rw [ghostPass, ih _ _ _ (Nat.lt_succ_of_lt hn)]
    have hne : n ≠ idx := Nat.ne_of_lt hn
    simp [List.getD_eq_getElem?_getD, List.getElem?_set_ne (Ne.symm hne)]

theorem ghostPass_getD_of_ge (dup : Nat) (dist : Int × Int × Int → Int) :
    ∀ (ps : List (Int × Int × Int)) (idx : Nat) (g : List Nat) (n : Nat),
      idx + ps.length ≤ n → (ghostPass dup dist ps idx g).getD n 0 = g.getD n 0 := by
  intro ps
  induction ps with
  | nil => intro idx g n _; rfl
  | cons p ps ih =>
    intro idx g n hn
    simp only [List.length_cons] at hn
    rw [ghostPass, ih _ _ _ (by omega)]
    have hne : n ≠ idx := by omega
    simp [List.getD_eq_getElem?_getD, List.getElem?_set_ne (Ne.symm hne)]

theorem ghostPass_getD_mid (dup : Nat) (dist : Int × Int × Int → Int) :
    ∀ (ps : List (Int × Int × Int)) (idx : Nat) (g : List Nat) (n : Nat),
      idx ≤ n → n < idx + ps.length → n < g.length →
      (ghostPass dup dist ps idx g).getD n 0 =
        markValue dup (dist (ps.getD (n - idx) (0, 0, 0))) (g.getD n 0) := by
  intro ps
  induction ps with
  | nil =>
    intro idx g n h1 h2 _
    simp only [List.length_nil, Nat.add_zero] at h2
    omega
  | cons p ps ih =>
    intro idx g n h1 h2 h3
    rw [ghostPass]
    rcases Nat.eq_or_lt_of_le h1 with heq | hlt
    · subst heq
      rw [ghostPass_getD_of_lt dup dist ps _ _ _ (Nat.lt_succ_self idx)]
      simp [List.getD_eq_getElem?_getD, List.getElem?_set_self h3]
    · have hmain := ih (idx + 1) (g.set idx (markValue dup (dist p) (g.getD idx 0))) n
        hlt (by simp only [List.length_cons] at h2; omega) (by simpa using h3)
      rw [hmain]
      have hne : n ≠ idx := by omega
      have hsub : n - idx = (n - (idx + 1)) + 1 := by omega
      rw [hsub]
      simp [List.getD_eq_getElem?_getD, List.getElem?_set_ne (Ne.symm hne)]

theorem pointLoop_length (e : Extent) :
    (pointLoop e).length = numPointsOfExtent e := by
  simp only [pointLoop, numPointsOfExtent, List.length_flatMap, Function.comp_def,
    List.length_map, List.map_const', List.length_range, List.sum_replicate, smul_eq_mul]
  ring

theorem cellLoop_length (e : Extent) :
    (cellLoop e).length =
      (e.x1 - e.x0).toNat * ((e.y1 - e.y0).toNat * (e.z1 - e.z0).toNat) := by
  simp only [cellLoop, List.length_flatMap, Function.comp_def,
    List.length_map, List.map_const', List.length_range, List.sum_replicate, smul_eq_mul]
  ring

theorem inflated_axis_cells (lo hi : Int) :
    ((if lo = hi then hi + 1 else hi) - lo).toNat = axisCellCount lo hi := by
  unfold axisCellCount
  rcases lt_trichotomy hi lo with h | h | h
  · rw [if_neg (by omega), if_pos h]
    omega
  · rw [if_pos h.symm, if_neg (by omega), if_pos h]
    omega
  · rw [if_neg (by omega), if_neg (by omega), if_neg (by omega)]

theorem cellLoop_inflated_length (e : Extent) :
    (cellLoop (inflatedExtent e)).length = numCellsOfExtent e := by
  rw [cellLoop_length]
  simp only [inflatedExtent, numCellsOfExtent]
  rw [inflated_axis_cells e.x0 e.x1, inflated_axis_cells e.y0 e.y1,
    inflated_axis_cells e.z0 e.z1]

theorem lookupArray_addArray_self (s : AttrSet) (n : String) (a : List Nat) :
    lookupArray (addArray s n a) n = some a := by
  simp [lookupArray, addArray]

theorem generateGhostArray_pointData (ds : DataSet) (z : Extent)
    (h1 : ds.isStructured = true) (h2 : ds.extent ≠ z) :
    ((GenerateGhostArray ds z false).1).pointData
      = addArray ds.pointData ghostArrayName
          (ghostPass DUPLICATEPOINT (pointDist z) (pointLoop ds.extent) 0
            ((lookupArray ds.pointData ghostArrayName).getD
              (List.replicate (numPointsOfExtent ds.extent) 0))) := by
  unfold GenerateGhostArray
  rw [if_neg (by simp [h1]), if_neg h2]
  rfl

theorem generateGhostArray_cellData (ds : DataSet) (z : Extent) (c : Bool)
    (h1 : ds.isStructured = true) (h2 : ds.extent ≠ z) :
    ((GenerateGhostArray ds z c).1).cellData
      = addArray ds.cellData ghostArrayName
          (ghostPass DUPLICATECELL (cellDist (inflatedZeroExt ds.extent z))
            (cellLoop (inflatedExtent ds.extent)) 0
            ((lookupArray ds.cellData ghostArrayName).getD
              (List.replicate (numCellsOfExtent ds.extent) 0))) := by
  unfold GenerateGhostArray
  rw [if_neg (by simp [h1]), if_neg h2]

theorem generateGhostArray_snd (ds : DataSet) (z : Extent) (c : Bool)
    (h1 : ds.isStructured = true) (h2 : ds.extent ≠ z) :
    (GenerateGhostArray ds z c).2 = inflatedZeroExt ds.extent z := by
  unfold GenerateGhostArray
  rw [if_neg (by simp [h1]), if_neg h2]

theorem nat_or_absorb (a b : Nat) : a ||| (a ||| b) = a ||| b := by
  rw [← Nat.or_assoc, Nat.or_self]

/-- C1: on a structured dataset whose true extent differs from the canonical
extent, the point pass of `GenerateGhostArray` ORs `DUPLICATEPOINT` into
exactly the entries whose Chebyshev overflow distance (per axis
`max(0, lo - a, a - hi)` with a `+1` adjustment above the canonical upper
bound, axes combined by `max`) is positive, and leaves entries of distance
zero unchanged; in the scenario with true extent `[0,4,0,4,0,0]` and
canonical extent `[1,3,1,3,0,0]`, the sixteen border points are marked
`DUPLICATEPOINT` and the interior nine are not. -/
theorem generateGhostArray_marks_chebyshev :
    (∀ (ds : DataSet) (z : Extent) (g : List Nat),
      ds.isStructured = true → ds.extent ≠ z →
      lookupArray ds.pointData ghostArrayName = some g →
      g.length = numPointsOfExtent ds.extent →
      ∃ g', lookupArray ((GenerateGhostArray ds z false).1).pointData ghostArrayName
          = some g' ∧
        g'.length = g.length ∧
        ∀ n, n < g.length →
          g'.getD n 0 =
            (if 0 < pointDist z ((pointLoop ds.extent).getD n (0, 0, 0))
             then g.getD n 0 ||| DUPLICATEPOINT else g.getD n 0)) ∧
    lookupArray ((GenerateGhostArray scenarioDS scenarioZero false).1).pointData
        ghostArrayName = some scenarioExpected := by
  constructor
  · intro ds z g h1 h2 hg hlen
    have hbase : (lookupArray ds.pointData ghostArrayName).getD
        (List.replicate (numPointsOfExtent ds.extent) 0) = g := by
      rw [hg]; rfl
    refine ⟨ghostPass DUPLICATEPOINT (pointDist z) (pointLoop ds.extent) 0 g,
      ?_, ?_, ?_⟩
    · rw [generateGhostArray_pointData ds z h1 h2, hbase, lookupArray_addArray_self]
    · exact ghostPass_length _ _ _ _ _
    · intro n hn
      have hloop : n < 0 + (pointLoop ds.extent).length := by
        rw [pointLoop_length, Nat.zero_add]
        omega
      rw [ghostPass_getD_mid DUPLICATEPOINT (pointDist z) (pointLoop ds.extent) 0 g n
        (Nat.zero_le n) hloop hn]
      simp [markValue]
  · decide

/-- C6: `HasAnyGhostPoints` is `false` whenever the point ghost array is
absent; `GenerateGhostArray` with the true extent equal to the canonical
extent is a no-op (it creates no array and changes nothing); when the array
is present, `HasAnyGhostPoints` is `true` iff some entry has the
`DUPLICATEPOINT` bit set. -/
theorem hasAnyGhostPoints_cases :
    (∀ ds : DataSet, lookupArray ds.pointData ghostArrayName = none →
      HasAnyGhostPoints ds = false) ∧
    (∀ (ds : DataSet) (z : Extent) (c : Bool), ds.extent = z →
      (GenerateGhostArray ds z c).1 = ds) ∧
    (∀ (ds : DataSet) (g : List Nat),
      lookupArray ds.pointData ghostArrayName = some g →
      (HasAnyGhostPoints ds = true ↔ ∃ v ∈ g, v &&& DUPLICATEPOINT ≠ 0)) := by
  refine ⟨?_, ?_, ?_⟩
  · intro ds h
    simp [HasAnyGhostPoints, h, IsAnyBitSet]
  · intro ds z c h
    by_cases hb : ds.isStructured = false <;> simp [GenerateGhostArray, hb, h]
  · intro ds g hg
    simp [HasAnyGhostPoints, hg, IsAnyBitSet, List.any_eq_true]

/-- C7: `GenerateGhostArray` creates a missing ghost array sized to one tuple
per point (resp. cell) of the extent, attached under the reserved ghost name,
whose entries afterwards carry only the freshly OR-ed duplicate bit over the
default value 0; a pre-existing array keeps its length and every entry keeps
all of its previous bits (bits are only added, never cleared). -/
theorem generateGhostArray_creates_and_preserves :
    (∀ (ds : DataSet) (z : Extent),
      ds.isStructured = true → ds.extent ≠ z →
      lookupArray ds.pointData ghostArrayName = none →
      ∃ g', lookupArray ((GenerateGhostArray ds z false).1).pointData ghostArrayName
          = some g' ∧
        g'.length = numPointsOfExtent ds.extent ∧
        ∀ n, n < g'.length → g'.getD n 0 = 0 ∨ g'.getD n 0 = DUPLICATEPOINT) ∧
    (∀ (ds : DataSet) (z : Extent) (g : List Nat),
      ds.isStructured = true → ds.extent ≠ z →
      lookupArray ds.pointData ghostArrayName = some g →
      ∃ g', lookupArray ((GenerateGhostArray ds z false).1).pointData ghostArrayName
          = some g' ∧
        g'.length = g.length ∧
        ∀ n, n < g.length → g.getD n 0 ||| g'.getD n 0 = g'.getD n 0) ∧
    (∀ (ds : DataSet) (z : Extent) (c : Bool),
      ds.isStructured = true → ds.extent ≠ z →
      lookupArray ds.cellData ghostArrayName = none →
      ∃ g', lookupArray ((GenerateGhostArray ds z c).1).cellData ghostArrayName
          = some g' ∧
        g'.length = numCellsOfExtent ds.extent ∧
        ∀ n, n < g'.length → g'.getD n 0 = 0 ∨ g'.getD n 0 = DUPLICATECELL) ∧
    (∀ (ds : DataSet) (z : Extent) (c : Bool) (g : List Nat),
      ds.isStructured = true → ds.extent ≠ z →
      lookupArray ds.cellData ghostArrayName = some g →
      ∃ g', lookupArray ((GenerateGhostArray ds z c).1).cellData ghostArrayName
          = some g' ∧
        g'.length = g.length ∧
        ∀ n, n < g.length → g.getD n 0 ||| g'.getD n 0 = g'.getD n 0) := by
  refine ⟨?_, ?_, ?_, ?_⟩
  · intro ds z h1 h2 hnone
    refine ⟨ghostPass DUPLICATEPOINT (pointDist z) (pointLoop ds.extent) 0
      (List.replicate (numPointsOfExtent ds.extent) 0), ?_, ?_, ?_⟩
    · rw [generateGhostArray_pointData ds z h1 h2, hnone]
      rw [lookupArray_addArray_self]
      rfl
    · rw [ghostPass_length, List.length_replicate]
    · intro n hn
      rw [ghostPass_length, List.length_replicate] at hn
      have hloop : n < 0 + (pointLoop ds.extent).length := by
        rw [pointLoop_length, Nat.zero_add]; omega
      rw [ghostPass_getD_mid DUPLICATEPOINT (pointDist z) (pointLoop ds.extent) 0 _ n
        (Nat.zero_le n) hloop (by rw [List.length_replicate]; omega)]
      have hz : (List.replicate (numPointsOfExtent ds.extent) (0 : Nat)).getD n 0 = 0 := by
        simp [List.getD_eq_getElem?_getD, List.getElem?_replicate, hn]
      rw [hz]
      unfold markValue
      split
      · right; exact Nat.zero_or _
      · left; rfl
  · intro ds z g h1 h2 hg
    have hbase : (lookupArray ds.pointData ghostArrayName).getD
        (List.replicate (numPointsOfExtent ds.extent) 0) = g := by rw [hg]; rfl
    refine ⟨ghostPass DUPLICATEPOINT (pointDist z) (pointLoop ds.extent) 0 g,
      ?_, ghostPass_length _ _ _ _ _, ?_⟩
    · rw [generateGhostArray_pointData ds z h1 h2, hbase, lookupArray_addArray_self]
    · intro n hn
      rcases Nat.lt_or_ge n (0 + (pointLoop ds.extent).length) with hlt | hge
      · rw [ghostPass_getD_mid DUPLICATEPOINT (pointDist z) (pointLoop ds.extent) 0 g n
          (Nat.zero_le n) hlt hn]
        unfold markValue
        split
        · exact nat_or_absorb _ _
        · exact Nat.or_self _
      · rw [ghostPass_getD_of_ge DUPLICATEPOINT (pointDist z) (pointLoop ds.extent) 0 g n hge]
        exact Nat.or_self _
  · intro ds z c h1 h2 hnone
    refine ⟨ghostPass DUPLICATECELL (cellDist (inflatedZeroExt ds.extent z))
      (cellLoop (inflatedExtent ds.extent)) 0
      (List.replicate (numCellsOfExtent ds.extent) 0), ?_, ?_, ?_⟩
    · rw [generateGhostArray_cellData ds z c h1 h2, hnone, lookupArray_addArray_self]
      rfl
    · rw [ghostPass_length, List.length_replicate]
    · intro n hn
      rw [ghostPass_length, List.length_replicate] at hn
      have hloop : n < 0 + (cellLoop (inflatedExtent ds.extent)).length := by
        rw [cellLoop_inflated_length, Nat.zero_add]; omega
      rw [ghostPass_getD_mid DUPLICATECELL _ _ 0 _ n (Nat.zero_le n) hloop
        (by rw [List.length_replicate]; omega)]
      have hz : (List.replicate (numCellsOfExtent ds.extent) (0 : Nat)).getD n 0 = 0 := by
        simp [List.getD_eq_getElem?_getD, List.getElem?_replicate, hn]
      rw [hz]
      unfold markValue
      split
      · right; exact Nat.zero_or _
      · left; rfl
  · intro ds z c g h1 h2 hg
    have hbase : (lookupArray ds.cellData ghostArrayName).getD
        (List.replicate (numCellsOfExtent ds.extent) 0) = g := by rw [hg]; rfl
    refine ⟨ghostPass DUPLICATECELL (cellDist (inflatedZeroExt ds.extent z))
      (cellLoop (inflatedExtent ds.extent)) 0 g,
      ?_, ghostPass_length _ _ _ _ _, ?_⟩
    · rw [generateGhostArray_cellData ds z c h1 h2, hbase, lookupArray_addArray_self]
    · intro n hn
      rcases Nat.lt_or_ge n (0 + (cellLoop (inflatedExtent ds.extent)).length) with hlt | hge
      · rw [ghostPass_getD_mid DUPLICATECELL _ _ 0 g n (Nat.zero_le n) hlt hn]
        unfold markValue
        split
        · exact nat_or_absorb _ _
        · exact Nat.or_self _
      · rw [ghostPass_getD_of_ge DUPLICATECELL _ _ 0 g n hge]
        exact Nat.or_self _

/-- C9: when the classifier runs (structured dataset, extents differ), the
cell pass increments the upper bound of the caller-supplied `zeroExt` array
by one on every axis whose true extent is degenerate (`lo = hi`), leaves all
other entries unchanged, and this mutation is visible to the caller after the
call returns (the returned final value of the `zeroExt` pointer argument). -/
theorem generateGhostArray_mutates_zeroExt :
    ∀ (ds : DataSet) (z : Extent) (c : Bool),
      ds.isStructured = true → ds.extent ≠ z →
      ((GenerateGhostArray ds z c).2.x0 = z.x0 ∧
       (GenerateGhostArray ds z c).2.y0 = z.y0 ∧
       (GenerateGhostArray ds z c).2.z0 = z.z0) ∧
      (GenerateGhostArray ds z c).2.x1 =
        (if ds.extent.x0 = ds.extent.x1 then z.x1 + 1 else z.x1) ∧
      (GenerateGhostArray ds z c).2.y1 =
        (if ds.extent.y0 = ds.extent.y1 then z.y1 + 1 else z.y1) ∧
      (GenerateGhostArray ds z c).2.z1 =
        (if ds.extent.z0 = ds.extent.z1 then z.z1 + 1 else z.z1) := by
  intro ds z c h1 h2
  rw [generateGhostArray_snd ds z c h1 h2]
  simp [inflatedZeroExt]

/-- Witness for C1 at a concrete input. -/
theorem generateGhostArray_marks_chebyshev_witness :
    ∃ g', lookupArray ((GenerateGhostArray wDS wZ false).1).pointData ghostArrayName
        = some g' ∧
      g'.length = ([0, 0] : List Nat).length ∧
      ∀ n, n < ([0, 0] : List Nat).length →
        g'.getD n 0 =
          (if 0 < pointDist wZ ((pointLoop wDS.extent).getD n (0, 0, 0))
           then ([0, 0] : List Nat).getD n 0 ||| DUPLICATEPOINT
           else ([0, 0] : List Nat).getD n 0) :=
  generateGhostArray_marks_chebyshev.1 wDS wZ [0, 0] (by decide) (by decide)
    (by decide) (by decide)

/-- Witness for C6 at concrete inputs. -/
theorem hasAnyGhostPoints_cases_witness :
    HasAnyGhostPoints wDS2 = false ∧
    (GenerateGhostArray wDS ⟨0, 1, 0, 0, 0, 0⟩ false).1 = wDS ∧
    (HasAnyGhostPoints wDS = true ↔ ∃ v ∈ ([0, 0] : List Nat), v &&& DUPLICATEPOINT ≠ 0) :=
  ⟨hasAnyGhostPoints_cases.1 wDS2 (by decide),
   hasAnyGhostPoints_cases.2.1 wDS ⟨0, 1, 0, 0, 0, 0⟩ false (by decide),
   hasAnyGhostPoints_cases.2.2 wDS [0, 0] (by decide)⟩

/-- Witness for C7 at concrete inputs. -/
theorem generateGhostArray_creates_and_preserves_witness :
    (∃ g', lookupArray ((GenerateGhostArray wDS2 wZ false).1).pointData ghostArrayName
        = some g' ∧
      g'.length = numPointsOfExtent wDS2.extent ∧
      ∀ n, n < g'.length → g'.getD n 0 = 0 ∨ g'.getD n 0 = DUPLICATEPOINT) ∧
    (∃ g', lookupArray ((GenerateGhostArray wDS wZ true).1).cellData ghostArrayName
        = some g' ∧
      g'.length = ([0] : List Nat).length ∧
      ∀ n, n < ([0] : List Nat).length →
        ([0] : List Nat).getD n 0 ||| g'.getD n 0 = g'.getD n 0) :=
  ⟨generateGhostArray_creates_and_preserves.1 wDS2 wZ (by decide) (by decide) (by decide),
   generateGhostArray_creates_and_preserves.2.2.2 wDS wZ true [0] (by decide) (by decide)
     (by decide)⟩

/-- Witness for C9 at a concrete input. -/
theorem generateGhostArray_mutates_zeroExt_witness :
    (((GenerateGhostArray wDS wZ false).2.x0 = wZ.x0 ∧
      (GenerateGhostArray wDS wZ false).2.y0 = wZ.y0 ∧
      (GenerateGhostArray wDS wZ false).2.z0 = wZ.z0) ∧
     (GenerateGhostArray wDS wZ false).2.x1 =
       (if wDS.extent.x0 = wDS.extent.x1 then wZ.x1 + 1 else wZ.x1) ∧
     (GenerateGhostArray wDS wZ false).2.y1 =
       (if wDS.extent.y0 = wDS.extent.y1 then wZ.y1 + 1 else wZ.y1) ∧
     (GenerateGhostArray wDS wZ false).2.z1 =
       (if wDS.extent.z0 = wDS.extent.z1 then wZ.z1 + 1 else wZ.z1)) :=
  generateGhostArray_mutates_zeroExt wDS wZ false (by decide) (by decide)

theorem foldl_widen_components :
    ∀ (pts : List (ℚ × ℚ × ℚ)) (b : Box),
      pts.foldl widenBounds b =
        ⟨minFold (pts.map (fun p => p.1)) b.xmin,
         maxFold (pts.map (fun p => p.1)) b.xmax,
         minFold (pts.map (fun p => p.2.1)) b.ymin,
         maxFold (pts.map (fun p => p.2.1)) b.ymax,
         minFold (pts.map (fun p => p.2.2)) b.zmin,
         maxFold (pts.map (fun p => p.2.2)) b.zmax⟩ := by
  intro pts
  induction pts with
  | nil => intro b; rfl
  | cons p t ih =>
    intro b
    rw [List.foldl_cons, ih]
    rfl

theorem minFold_le_init : ∀ (xs : List ℚ) (a : ℚ), minFold xs a ≤ a := by
  intro xs
  induction xs with
  | nil => intro a; exact le_refl a
  | cons x t ih =>
    intro a
    refine le_trans (ih _) ?_
    by_cases h : x < a
    · simp [h]
      exact h.le
    · simp [h]

theorem maxFold_init_le : ∀ (xs : List ℚ) (a : ℚ), a ≤ maxFold xs a := by
  intro xs
  induction xs with
  | nil => intro a; exact le_refl a
  | cons x t ih =>
    intro a
    refine le_trans ?_ (ih _)
    by_cases h : x > a
    · simp [h]
      exact h.le
    · simp [h]

theorem minFold_le_mem :
    ∀ (xs : List ℚ) (a x : ℚ), x ∈ xs → minFold xs a ≤ x := by
  intro xs
  induction xs with
  | nil => intro a x hx; cases hx
  | cons y t ih =>
    intro a x hx
    rcases List.mem_cons.mp hx with h | h
    · subst h
      refine le_trans (minFold_le_init t _) ?_
      by_cases hlt : x < a
      · simp [minFold, hlt]
      · simp [minFold, hlt]
        exact le_of_not_lt hlt
    · exact ih _ x h

theorem maxFold_mem_le :
    ∀ (xs : List ℚ) (a x : ℚ), x ∈ xs → x ≤ maxFold xs a := by
  intro xs
  induction xs with
  | nil => intro a x hx; cases hx
  | cons y t ih =>
    intro a x hx
    rcases List.mem_cons.mp hx with h | h
    · subst h
      refine le_trans ?_ (maxFold_init_le t _)
      by_cases hlt : x > a
      · simp [maxFold, hlt]
      · simp [maxFold, hlt]
        exact le_of_not_lt hlt
    · exact ih _ x h

theorem minFold_init_or_mem :
    ∀ (xs : List ℚ) (a : ℚ), minFold xs a = a ∨ minFold xs a ∈ xs := by
  intro xs
  induction xs with
  | nil => intro a; exact Or.inl rfl
  | cons x t ih =>
    intro a
    rcases ih (if x < a then x else a) with h | h
    · by_cases hlt : x < a
      · right
        rw [minFold, List.foldl_cons] at *
        rw [h, if_pos hlt]
        exact List.mem_cons_self x t
      · left
        rw [minFold, List.foldl_cons] at *
        rw [h, if_neg hlt]
    · right
      rw [minFold, List.foldl_cons]
      exact List.mem_cons_of_mem x h

theorem maxFold_init_or_mem :
    ∀ (xs : List ℚ) (a : ℚ), maxFold xs a = a ∨ maxFold xs a ∈ xs := by
  intro xs
  induction xs with
  | nil => intro a; exact Or.inl rfl
  | cons x t ih =>
    intro a
    rcases ih (if x > a then x else a) with h | h
    · by_cases hlt : x > a
      · right
        rw [maxFold, List.foldl_cons] at *
        rw [h, if_pos hlt]
        exact List.mem_cons_self x t
      · left
        rw [maxFold, List.foldl_cons] at *
        rw [h, if_neg hlt]
    · right
      rw [maxFold, List.foldl_cons]
      exact List.mem_cons_of_mem x h

theorem minFold_attains (xs : List ℚ) (a c : ℚ) (hc : c ∈ xs) (hca : c ≤ a) :
    minFold xs a ∈ xs := by
  rcases minFold_init_or_mem xs a with h | h
  · have h1 : minFold xs a ≤ c := minFold_le_mem xs a c hc
    rw [h] at h1
    have hce : c = a := le_antisymm hca h1
    rw [h, ← hce]
    exact hc
  · exact h

theorem maxFold_attains (xs : List ℚ) (a c : ℚ) (hc : c ∈ xs) (hca : a ≤ c) :
    maxFold xs a ∈ xs := by
  rcases maxFold_init_or_mem xs a with h | h
  · have h1 : c ≤ maxFold xs a := maxFold_mem_le xs a c hc
    rw [h] at h1
    have hce : c = a := le_antisymm h1 hca
    rw [h, ← hce]
    exact hc
  · exact h

theorem if_lt_eq_min (a b : ℚ) : (if a < b then a else b) = min a b := by
  rcases lt_or_ge a b with h | h
  · rw [if_pos h, min_eq_left h.le]
  · rw [if_neg (not_lt.mpr h), min_eq_right h]

theorem if_gt_eq_max (a b : ℚ) : (if a > b then a else b) = max a b := by
  rcases lt_or_ge b a with h | h
  · rw [if_pos h, max_eq_left h.le]
  · rw [if_neg (not_lt.mpr h), max_eq_right h]

theorem getMTime_le_global (ds : DataSetB) (h : WellFormedClocks ds) :
    GetMTime ds ≤ ds.global :=
  max_le (max_le h.1 h.2.1) h.2.2

/-- C2 counterexample: recomputing the bounds of `staleDS` records the stamp
2, a fresh clock value taken after recomputation, while the aggregate
modification clock observed at the start of the recomputation is 1 — the
recorded stamp is not the snapshot and exceeds the modification time
observed at the start. -/
theorem computeBounds_stamp_exceeds_snapshot :
    GetMTime staleDS = 1 ∧
    staleDS.computeTime < GetMTime staleDS ∧
    (ComputeBounds staleDS).computeTime = 2 ∧
    (ComputeBounds staleDS).computeTime ≠ GetMTime staleDS ∧
    ¬((ComputeBounds staleDS).computeTime ≤ GetMTime staleDS) := by
  refine ⟨rfl, by decide, by decide, by decide, by decide⟩

/-- C2 (amended): a cached query is served from the cache iff its stamp is at
least the aggregate clock `GetMTime`; otherwise it recomputes and then sets
the stamp to a fresh clock value taken after recomputation (`Modified()`,
i.e. "now"), which strictly exceeds the modification time observed at the
start of the recomputation. This holds for both the bounds cache and the
scalar-range cache. -/
theorem cacheStamp_freshness :
    ∀ ds : DataSetB, WellFormedClocks ds →
      ((GetMTime ds ≤ ds.computeTime → ComputeBounds ds = ds) ∧
       (ds.computeTime < GetMTime ds →
         (ComputeBounds ds).bounds =
           (if ds.points.length ≠ 0 then computeBoundsLoop ds.points
            else uninitializedBounds) ∧
         (ComputeBounds ds).computeTime = ds.global + 1 ∧
         GetMTime ds < (ComputeBounds ds).computeTime)) ∧
      ((GetMTime ds ≤ ds.scalarRangeComputeTime → ComputeScalarRange ds = ds) ∧
       (ds.scalarRangeComputeTime < GetMTime ds →
         (ComputeScalarRange ds).scalarRange =
           combineRanges ds.ptScalarRange ds.cellScalarRange ∧
         (ComputeScalarRange ds).scalarRangeComputeTime = ds.global + 1 ∧
         GetMTime ds < (ComputeScalarRange ds).scalarRangeComputeTime)) := by
  intro ds hw
  have hg : GetMTime ds ≤ ds.global := getMTime_le_global ds hw
  refine ⟨⟨?_, ?_⟩, ?_, ?_⟩
  · intro h
    rw [ComputeBounds, if_neg (not_lt.mpr h)]
  · intro h
    rw [ComputeBounds, if_pos h]
    refine ⟨rfl, rfl, ?_⟩
    show GetMTime ds < ds.global + 1
    omega
  · intro h
    rw [ComputeScalarRange, if_neg (not_lt.mpr h)]
  · intro h
    rw [ComputeScalarRange, if_pos h]
    refine ⟨rfl, rfl, ?_⟩
    show GetMTime ds < ds.global + 1
    omega

/-- Witness for the amended C2 at a concrete stale input. -/
theorem cacheStamp_freshness_witness :
    (ComputeBounds staleDS).bounds =
      (if staleDS.points.length ≠ 0 then computeBoundsLoop staleDS.points
       else uninitializedBounds) ∧
    (ComputeBounds staleDS).computeTime = staleDS.global + 1 ∧
    GetMTime staleDS < (ComputeBounds staleDS).computeTime :=
  (cacheStamp_freshness staleDS ⟨by decide, by decide, by decide⟩).1.2 (by decide)

/-- C3: on a recomputation (stale stamp), `GetScalarRange` combines the
ghost-excluded point and cell ranges: with both present the result is the
pair of the componentwise min of the minima and max of the maxima; with
exactly one present, that range; with neither, the sentinel `(0, 1)`. -/
theorem getScalarRange_combination :
    ∀ ds : DataSetB, ds.scalarRangeComputeTime < GetMTime ds →
      (∀ a b : ℚ × ℚ, ds.ptScalarRange = some a → ds.cellScalarRange = some b →
        GetScalarRange ds = (min a.1 b.1, max a.2 b.2)) ∧
      (∀ a : ℚ × ℚ, ds.ptScalarRange = some a → ds.cellScalarRange = none →
        GetScalarRange ds = a) ∧
      (∀ b : ℚ × ℚ, ds.ptScalarRange = none → ds.cellScalarRange = some b →
        GetScalarRange ds = b) ∧
      (ds.ptScalarRange = none → ds.cellScalarRange = none →
        GetScalarRange ds = (0, 1)) := by
  intro ds h
  have hget : GetScalarRange ds = combineRanges ds.ptScalarRange ds.cellScalarRange := by
    rw [GetScalarRange, ComputeScalarRange, if_pos h]
  refine ⟨?_, ?_, ?_, ?_⟩
  · intro a b ha hb
    rw [hget, ha, hb, combineRanges, if_lt_eq_min, if_gt_eq_max]
  · intro a ha hb
    rw [hget, ha, hb, combineRanges]
  · intro b ha hb
    rw [hget, ha, hb, combineRanges]
  · intro ha hb
    rw [hget, ha, hb, combineRanges]

/-- Witness for C3: point range `[0,10]` and cell range `[5,20]` combine to
`[0,20]`. -/
theorem getScalarRange_combination_witness :
    GetScalarRange scalarDS = (min (0 : ℚ) 5, max (10 : ℚ) 20) :=
  (getScalarRange_combination scalarDS (by decide)).1 (0, 10) (5, 20) rfl rfl

/-- C4: on a recomputation (stale stamp), with at least one point the bounds
form a valid box: per axis `min ≤ max`, every point lies inside, and — as
long as the coordinates are finite doubles (within `±VTK_DOUBLE_MAX`) — each
min and max is attained by a point coordinate (the componentwise min/max);
with zero points the bounds are the uninitialized sentinel, which differs
from the degenerate zero box. -/
theorem getBounds_ordered_or_sentinel :
    ∀ ds : DataSetB, ds.computeTime < GetMTime ds →
      (0 < ds.points.length →
        ((GetBounds ds).xmin ≤ (GetBounds ds).xmax ∧
         (GetBounds ds).ymin ≤ (GetBounds ds).ymax ∧
         (GetBounds ds).zmin ≤ (GetBounds ds).zmax) ∧
        (∀ p ∈ ds.points,
          (GetBounds ds).xmin ≤ p.1 ∧ p.1 ≤ (GetBounds ds).xmax ∧
          (GetBounds ds).ymin ≤ p.2.1 ∧ p.2.1 ≤ (GetBounds ds).ymax ∧
          (GetBounds ds).zmin ≤ p.2.2 ∧ p.2.2 ≤ (GetBounds ds).zmax) ∧
        ((∀ p ∈ ds.points,
            vtkDoubleMin ≤ p.1 ∧ p.1 ≤ vtkDoubleMax ∧
            vtkDoubleMin ≤ p.2.1 ∧ p.2.1 ≤ vtkDoubleMax ∧
            vtkDoubleMin ≤ p.2.2 ∧ p.2.2 ≤ vtkDoubleMax) →
          (GetBounds ds).xmin ∈ ds.points.map (fun p => p.1) ∧
          (GetBounds ds).xmax ∈ ds.points.map (fun p => p.1) ∧
          (GetBounds ds).ymin ∈ ds.points.map (fun p => p.2.1) ∧
          (GetBounds ds).ymax ∈ ds.points.map (fun p => p.2.1) ∧
          (GetBounds ds).zmin ∈ ds.points.map (fun p => p.2.2) ∧
          (GetBounds ds).zmax ∈ ds.points.map (fun p => p.2.2))) ∧
      (ds.points.length = 0 →
        GetBounds ds = uninitializedBounds ∧
        uninitializedBounds ≠ ⟨0, 0, 0, 0, 0, 0⟩) := by
  intro ds hstale
  constructor
  · intro hpos
    have hne : ds.points.length ≠ 0 := Nat.pos_iff_ne_zero.mp hpos
    have hgb : GetBounds ds = computeBoundsLoop ds.points := by
      rw [GetBounds, ComputeBounds, if_pos hstale]
      exact if_pos hne
    rw [hgb, computeBoundsLoop, foldl_widen_components]
    obtain ⟨q, hq⟩ := List.exists_mem_of_length_pos hpos
    have hqx : q.1 ∈ ds.points.map (fun p => p.1) := List.mem_map_of_mem _ hq
    have hqy : q.2.1 ∈ ds.points.map (fun p => p.2.1) := List.mem_map_of_mem _ hq
    have hqz : q.2.2 ∈ ds.points.map (fun p => p.2.2) := List.mem_map_of_mem _ hq
    refine ⟨⟨?_, ?_, ?_⟩, ?_, ?_⟩
    · exact le_trans (minFold_le_mem _ _ _ hqx) (maxFold_mem_le _ _ _ hqx)
    · exact le_trans (minFold_le_mem _ _ _ hqy) (maxFold_mem_le _ _ _ hqy)
    · exact le_trans (minFold_le_mem _ _ _ hqz) (maxFold_mem_le _ _ _ hqz)
    · intro p hp
      exact ⟨minFold_le_mem _ _ _ (List.mem_map_of_mem _ hp),
        maxFold_mem_le _ _ _ (List.mem_map_of_mem _ hp),
        minFold_le_mem _ _ _ (List.mem_map_of_mem _ hp),
        maxFold_mem_le _ _ _ (List.mem_map_of_mem _ hp),
        minFold_le_mem _ _ _ (List.mem_map_of_mem _ hp),
        maxFold_mem_le _ _ _ (List.mem_map_of_mem _ hp)⟩
    · intro hfin
      obtain ⟨hx1, hx2, hy1, hy2, hz1, hz2⟩ := hfin q hq
      exact ⟨minFold_attains _ _ _ hqx hx2, maxFold_attains _ _ _ hqx hx1,
        minFold_attains _ _ _ hqy hy2, maxFold_attains _ _ _ hqy hy1,
        minFold_attains _ _ _ hqz hz2, maxFold_attains _ _ _ hqz hz1⟩
  · intro hzero
    constructor
    · rw [GetBounds, ComputeBounds, if_pos hstale]
      simp [hzero]
    · intro h
      have : (1 : ℚ) = 0 := congrArg Box.xmin h
      norm_num at this

/-- Witness for C4 at a concrete empty input. -/
theorem getBounds_ordered_or_sentinel_witness :
    GetBounds emptyDS = uninitializedBounds ∧
    uninitializedBounds ≠ ⟨0, 0, 0, 0, 0, 0⟩ :=
  (getBounds_ordered_or_sentinel emptyDS (by decide)).2 rfl

/-- C8: `GetLength2` is exactly 0 for a dataset with no points (the early
return — the sentinel bounds would instead yield the nonzero value 12),
equals the sum of the squared per-axis bound extents when there are points,
and `GetLength` is the nonnegative square root of `GetLength2`. -/
theorem getLength2_diagonal :
    ∀ ds : DataSetB,
      (ds.points.length = 0 → GetLength2 ds = 0) ∧
      (0 < ds.points.length →
        GetLength2 ds =
          ((GetBounds ds).xmax - (GetBounds ds).xmin) *
              ((GetBounds ds).xmax - (GetBounds ds).xmin) +
            ((GetBounds ds).ymax - (GetBounds ds).ymin) *
              ((GetBounds ds).ymax - (GetBounds ds).ymin) +
            ((GetBounds ds).zmax - (GetBounds ds).zmin) *
              ((GetBounds ds).zmax - (GetBounds ds).zmin)) ∧
      ((uninitializedBounds.xmax - uninitializedBounds.xmin) *
            (uninitializedBounds.xmax - uninitializedBounds.xmin) +
          (uninitializedBounds.ymax - uninitializedBounds.ymin) *
            (uninitializedBounds.ymax - uninitializedBounds.ymin) +
          (uninitializedBounds.zmax - uninitializedBounds.zmin) *
            (uninitializedBounds.zmax - uninitializedBounds.zmin) ≠ 0) ∧
      0 ≤ GetLength ds ∧
      GetLength ds * GetLength ds = ((GetLength2 ds : ℚ) : ℝ) := by
  intro ds
  have hnonneg : 0 ≤ GetLength2 ds := by
    rw [GetLength2]
    split
    · exact le_refl 0
    · exact add_nonneg (add_nonneg (mul_self_nonneg _) (mul_self_nonneg _))
        (mul_self_nonneg _)
  refine ⟨?_, ?_, ?_, ?_, ?_⟩
  · intro h
    rw [GetLength2, if_pos h]
  · intro h
    rw [GetLength2, if_neg (Nat.pos_iff_ne_zero.mp h)]
  · norm_num [uninitializedBounds]
  · exact Real.sqrt_nonneg _
  · exact Real.mul_self_sqrt (by exact_mod_cast hnonneg)

/-- Witness for C8 at concrete inputs. -/
theorem getLength2_diagonal_witness :
    GetLength2 emptyDS = 0 ∧
    GetLength2 onePointDS =
      ((GetBounds onePointDS).xmax - (GetBounds onePointDS).xmin) *
          ((GetBounds onePointDS).xmax - (GetBounds onePointDS).xmin) +
        ((GetBounds onePointDS).ymax - (GetBounds onePointDS).ymin) *
          ((GetBounds onePointDS).ymax - (GetBounds onePointDS).ymin) +
        ((GetBounds onePointDS).zmax - (GetBounds onePointDS).zmin) *
          ((GetBounds onePointDS).zmax - (GetBounds onePointDS).zmin) :=
  ⟨(getLength2_diagonal emptyDS).1 rfl,
   (getLength2_diagonal onePointDS).2.1 (by decide)⟩

theorem checkArrays_result_cases (fp : Bool) (count : Nat) :
    ∀ arrays : List AttrInfo,
      (checkArrays fp count arrays).1 = 0 ∨ (checkArrays fp count arrays).1 = 1 := by
  intro arrays
  induction arrays with
  | nil => exact Or.inl rfl
  | cons a rest ih =>
    rw [checkArrays]
    by_cases h : a.numTuples < count
    · rw [if_pos h]
      exact Or.inr rfl
    · rw [if_neg h]
      exact ih

theorem checkArrays_result_iff (fp : Bool) (count : Nat) :
    ∀ arrays : List AttrInfo,
      ((checkArrays fp count arrays).1 = 1 ↔ ∃ a ∈ arrays, a.numTuples < count) := by
  intro arrays
  induction arrays with
  | nil => simp [checkArrays]
  | cons a rest ih =>
    rw [checkArrays]
    by_cases h : a.numTuples < count
    · rw [if_pos h]
      simp [h]
    · rw [if_neg h]
      simp only [List.mem_cons]
      constructor
      · intro h1
        obtain ⟨b, hb, hlt⟩ := ih.mp h1
        exact ⟨b, Or.inr hb, hlt⟩
      · intro ⟨b, hb, hlt⟩
        rcases hb with hb | hb
        · subst hb; exact absurd hlt h
        · exact ih.mpr ⟨b, hb, hlt⟩

theorem checkArrays_diag_sound (fp : Bool) (count : Nat) :
    ∀ (arrays : List AttrInfo) (d : Diag), d ∈ (checkArrays fp count arrays).2 →
      (d.sev = Severity.error → d.tuples < d.count) ∧
      (d.sev = Severity.warning → d.count < d.tuples) := by
  intro arrays
  induction arrays with
  | nil => intro d hd; cases hd
  | cons a rest ih =>
    intro d hd
    rw [checkArrays] at hd
    by_cases h : a.numTuples < count
    · rw [if_pos h] at hd
      rcases List.mem_singleton.mp hd with rfl
      exact ⟨fun _ => h, fun hw => (nomatch hw)⟩
    · rw [if_neg h] at hd
      simp only [List.mem_append] at hd
      rcases hd with hd | hd
      · by_cases hw : a.numTuples > count
        · rw [if_pos hw] at hd
          rcases List.mem_singleton.mp hd with rfl
          exact ⟨fun he => (nomatch he), fun _ => hw⟩
        · rw [if_neg hw] at hd
          cases hd
      · exact ih d hd

/-- C5: `CheckAttributes` returns the error result 1 exactly when some point
array has fewer tuples than the point count or some cell array has fewer
tuples than the cell count (and returns 0 otherwise — it is a total function
and never unwinds the caller); every emitted error diagnostic concerns an
array with fewer tuples than its element count, and every emitted warning
diagnostic concerns an array with more; the dataset itself is only read. -/
theorem checkAttributes_severity :
    ∀ ds : DataSetA,
      ((CheckAttributes ds).1 = 1 ↔
        (∃ a ∈ ds.pointArrays, a.numTuples < ds.numPoints) ∨
        (∃ a ∈ ds.cellArrays, a.numTuples < ds.numCells)) ∧
      ((CheckAttributes ds).1 = 0 ∨ (CheckAttributes ds).1 = 1) ∧
      (∀ d ∈ (CheckAttributes ds).2,
        (d.sev = Severity.error → d.tuples < d.count) ∧
        (d.sev = Severity.warning → d.count < d.tuples)) := by
  intro ds
  rw [CheckAttributes]
  by_cases hp : (checkArrays true ds.numPoints ds.pointArrays).1 = 1
  · rw [if_pos hp]
    refine ⟨?_, Or.inr hp, ?_⟩
    · rw [hp]
      simp only [true_iff]
      exact Or.inl ((checkArrays_result_iff true ds.numPoints ds.pointArrays).mp hp)
    · intro d hd
      exact checkArrays_diag_sound true ds.numPoints ds.pointArrays d hd
  · rw [if_neg hp]
    refine ⟨?_, checkArrays_result_cases false ds.numCells ds.cellArrays, ?_⟩
    · rw [checkArrays_result_iff false ds.numCells ds.cellArrays]
      constructor
      · exact Or.inr
      · intro h
        rcases h with h | h
        · exact absurd ((checkArrays_result_iff true ds.numPoints ds.pointArrays).mpr h) hp
        · exact h
    · intro d hd
      simp only [List.mem_append] at hd
      rcases hd with hd | hd
      · exact checkArrays_diag_sound true ds.numPoints ds.pointArrays d hd
      · exact checkArrays_diag_sound false ds.numCells ds.cellArrays d hd

/-- Witness for C5 at a concrete input. -/
theorem checkAttributes_severity_witness :
    (CheckAttributes wA).1 = 1 ∧
    ((⟨Severity.warning, true, "temperature", 2, 1⟩ : Diag).sev = Severity.warning →
      (1 : Nat) < 2) :=
  ⟨((checkAttributes_severity wA).1).mpr
      (Or.inr ⟨⟨none, 1, 0⟩, by decide, by decide⟩),
   ((checkAttributes_severity wA).2.2 ⟨Severity.warning, true, "temperature", 2, 1⟩
      (by decide)).2⟩

theorem cacheInv_applyOp (s : CacheState) (op : DataOp) (h : CacheInv s) :
    CacheInv (applyOp s op) := by
  cases op with
  | pointAdd n id => exact ⟨fun _ => rfl, h.2⟩
  | pointRemove n => exact ⟨fun _ => rfl, h.2⟩
  | cellAdd n id => exact ⟨h.1, fun _ => rfl⟩
  | cellRemove n => exact ⟨h.1, fun _ => rfl⟩

theorem cacheInv_foldl :
    ∀ (ops : List DataOp) (s : CacheState), CacheInv s →
      CacheInv (ops.foldl applyOp s) := by
  intro ops
  induction ops with
  | nil => intro s h; exact h
  | cons op rest ih =>
    intro s h
    exact ih (applyOp s op) (cacheInv_applyOp s op h)

theorem getPointGhostArray_fresh (s : CacheState) (h : CacheInv s) :
    (GetPointGhostArray s).2 = findGhost s.pointArrays := by
  rw [GetPointGhostArray]
  split
  · exact h.1 (by assumption)
  · rfl

theorem getCellGhostArray_fresh (s : CacheState) (h : CacheInv s) :
    (GetCellGhostArray s).2 = findGhost s.cellArrays := by
  rw [GetCellGhostArray]
  split
  · exact h.2 (by assumption)
  · rfl

/-- C10: in every state reachable from the constructor by attribute-set
mutations (each of which fires the modified-event observer), whenever a
cached flag is set the cached pointer equals the array currently stored
under the reserved ghost name, and a lookup through `GetPointGhostArray` /
`GetCellGhostArray` returns exactly that stored array — never a stale
pointer to a removed or replaced ghost array. -/
theorem ghostArrayCache_never_stale :
    ∀ ops : List DataOp,
      CacheInv (runOps ops) ∧
      (GetPointGhostArray (runOps ops)).2 = findGhost (runOps ops).pointArrays ∧
      (GetCellGhostArray (runOps ops)).2 = findGhost (runOps ops).cellArrays := by
  intro ops
  have hinv : CacheInv (runOps ops) :=
    cacheInv_foldl ops initialCacheState ⟨fun h => (nomatch h), fun h => (nomatch h)⟩
  exact ⟨hinv, getPointGhostArray_fresh _ hinv, getCellGhostArray_fresh _ hinv⟩

/-- Witness for C10 at a concrete mutation sequence: the ghost array is
added, then replaced. -/
theorem ghostArrayCache_never_stale_witness :
    CacheInv (runOps [DataOp.pointAdd ghostArrayName 5,
      DataOp.pointAdd ghostArrayName 7]) ∧
    (GetPointGhostArray (runOps [DataOp.pointAdd ghostArrayName 5,
      DataOp.pointAdd ghostArrayName 7])).2 =
      findGhost (runOps [DataOp.pointAdd ghostArrayName 5,
        DataOp.pointAdd ghostArrayName 7]).pointArrays ∧
    (GetCellGhostArray (runOps [DataOp.pointAdd ghostArrayName 5,
      DataOp.pointAdd ghostArrayName 7])).2 =
      findGhost (runOps [DataOp.pointAdd ghostArrayName 5,
        DataOp.pointAdd ghostArrayName 7]).cellArrays :=
  ghostArrayCache_never_stale [DataOp.pointAdd ghostArrayName 5,
    DataOp.pointAdd ghostArrayName 7]

end VTK
